import Mathlib

/-!
Shallow embedding of the voice-to-text plugin's probabilistic reply
decision engine and its voice message pipeline, translated from
`services/probabilistic_reply_service.py` and `main.py`.

Modelling conventions:
- Python floats occur only in defaulting, clamping (`max`/`min`) and
  order comparisons, all of which are exact, so they are modelled as
  rationals.
- The Python dict `_last_decision_time` (session id -> timestamp) is an
  association list; dict assignment replaces the entry for an existing
  key in place, deletion removes the key.
- `random.random()` and `time.time()` are impure collaborators; their
  results are passed in as explicit arguments.
- External collaborators of the pipeline (permission service, voice file
  processor, transcription service, history store, LLM provider) are not
  part of the given sources; their observable results enter the pipeline
  as fields of an environment record, and the pipeline's observable
  effects (history appends, event propagation stops, reply requests,
  decision engine calls, cleanup runs) are counted in a result record.
-/

namespace VoiceToText

/-- The session store `_last_decision_time`: session id to last decision time. -/
abbrev Store := List (String × ℚ)

/-- Dict read: the value stored for key `s`, if any. -/
def lookupSession : Store → String → Option ℚ
  | [], _ => none
  | (k, v) :: rest, s => if k = s then some v else lookupSession rest s

/-- Dict assignment at `probabilistic_reply_service.py:64`:
`self._last_decision_time[session_id] = time.time()` — replaces the entry
for an existing key, otherwise adds one. -/
def touch : Store → String → ℚ → Store
  | [], sid, t => [(sid, t)]
  | (k, v) :: rest, sid, t =>
      if k = sid then (sid, t) :: rest else (k, v) :: touch rest sid t

/-- Python truthiness of `session_id` (`if session_id:` at line 63):
false for `None` and for the empty string. -/
def optTruthy : Option String → Bool
  | none => false
  | some s => decide (s ≠ "")

/-- The mutable state of `ProbabilisticReplyService`: the `enabled` flag,
the clamped `reply_probability` and the session store. -/
structure ServiceState where
  enabled : Bool
  replyProbability : ℚ
  store : Store
  deriving DecidableEq

/-- Configuration sub-dict `Chat_Reply`; each key may be absent. -/
structure ChatReplyConfig where
  enableProbabilisticReply : Option Bool
  replyProbability : Option ℚ
  deriving DecidableEq

/-- Plugin configuration dict; the `Chat_Reply` section may be absent. -/
structure PluginCfg where
  chatReply : Option ChatReplyConfig
  deriving DecidableEq

/-- `ProbabilisticReplyService._load_config` (lines 29-42): defaults
`Enable_Probabilistic_Reply = False` and `Reply_Probability = 0.3`, then
clamps the probability with `max(0.0, min(1.0, p))`. Returns the pair
(enabled, reply_probability). -/
def load_config (cfg : PluginCfg) : Bool × ℚ :=
  let chatReplyCfg := cfg.chatReply.getD ⟨none, none⟩
  let enabled := chatReplyCfg.enableProbabilisticReply.getD false
  let p := chatReplyCfg.replyProbability.getD (3 / 10)
  (enabled, max 0 (min 1 p))

/-- `ProbabilisticReplyService.update_config` (lines 84-99): replaces the
config and re-runs `_load_config`; the session store is untouched (the
old/new comparison only drives logging). -/
def update_config (st : ServiceState) (cfg : PluginCfg) : ServiceState :=
  ⟨(load_config cfg).1, (load_config cfg).2, st.store⟩

/-- `ProbabilisticReplyService.should_generate_reply` (lines 44-69):
if the policy is disabled, return True at once (store untouched);
otherwise draw `r = random.random()`, compute `r <= reply_probability`,
and record `time.time()` for a truthy `session_id`. Returns the verdict
together with the store after the call. -/
def should_generate_reply (st : ServiceState) (sessionId : Option String)
    (r now : ℚ) : Bool × Store :=
  if !st.enabled then (true, st.store)
  else
    let shouldReply := decide (r ≤ st.replyProbability)
    let store :=
      if optTruthy sessionId then touch st.store (sessionId.getD "") now
      else st.store
    (shouldReply, store)

/-- Result of one `cleanup_old_sessions` call: the store afterwards, the
length of `sessions_to_remove` (only logged), and the Python return value
— the function has no `return` statement, so it returns `None`. -/
structure SweepResult where
  newStore : Store
  removedCount : Nat
  ret : Option Nat
  deriving DecidableEq

/-- `ProbabilisticReplyService.cleanup_old_sessions` (lines 119-136):
collects the keys with `current_time - last_time > max_age_seconds`,
then deletes exactly those keys. -/
def cleanup_old_sessions (store : Store) (now maxAge : ℚ) : SweepResult :=
  let sessionsToRemove := (store.filter (fun p => decide (now - p.2 > maxAge))).map Prod.fst
  let newStore := store.filter (fun p => decide (p.1 ∉ sessionsToRemove))
  ⟨newStore, sessionsToRemove.length, none⟩

/-- The spec's `PipelineOutcome` taxonomy, used to label the terminal
point of one pipeline invocation (the code itself returns early from
`_process_voice_message` rather than materialising an outcome value). -/
inductive PipelineOutcome where
  | permissionDenied
  | fileError
  | transcriptionEmpty
  | recordedOnly
  | replySkipped
  | replyEmitted
  | error
  deriving DecidableEq

/-- Environment of one pipeline invocation on one voice component: the
plugin's configuration flags plus the results the external collaborators
would produce if called. `canProcessVoice` / `canGenerateReply` are the
verdicts of the permission service, `filePrepResult` the path returned
by `_process_voice_file` (`none` for a caught failure), `transcription`
the text returned by `_transcribe_voice` (`none` for a caught failure),
`recordFails` whether `_record_voice_to_history` hits an exception
internally, `decisionRaises` an unexpected exception thrown at the
reply-decision stage (caught by the outer `except` of
`_process_voice_message`), and `randomValue` / `decisionTime` /
`cleanupTime` the impure draws used by the decision engine and the
final sweep. -/
structure PipelineEnv where
  isGroup : Bool
  canProcessVoice : Bool
  canGenerateReply : Bool
  enableGroupVoiceRecognition : Bool
  enableGroupVoiceReply : Bool
  enableChatReply : Bool
  sessionId : String
  filePrepResult : Option String
  transcription : Option String
  recordFails : Bool
  llmProviderAvailable : Bool
  decisionRaises : Bool
  randomValue : ℚ
  decisionTime : ℚ
  cleanupTime : ℚ
  deriving DecidableEq

/-- Observable effects of one pipeline invocation: the outcome label and
how often each collaborator-visible action ran, plus the session store
afterwards. -/
structure PipelineResult where
  outcome : PipelineOutcome
  historyAppends : Nat
  stopPropagation : Nat
  replyRequests : Nat
  decisionCalls : Nat
  cleanups : Nat
  store : Store
  deriving DecidableEq

/-- The `try` body of `VoiceToTextPlugin._process_voice_message`
(main.py lines 87-127): file prep (early return when falsy), transcription
(early return when falsy — `None` on caught provider failure, or the empty
string), unconditional history recording (which swallows its own errors,
main.py lines 193-224), the group record-only gate with `event.stop_event()`
(lines 109-117), and the reply gate that consults
`should_generate_reply` and then yields one `request_llm` when a provider
is configured (lines 120-127, 156-187). -/
def pipelineBody (st : ServiceState) (env : PipelineEnv) : PipelineResult :=
  if !optTruthy env.filePrepResult then
    ⟨.fileError, 0, 0, 0, 0, 0, st.store⟩
  else if !optTruthy env.transcription then
    ⟨.transcriptionEmpty, 0, 0, 0, 0, 0, st.store⟩
  else
    let appends := if env.recordFails then 0 else 1
    if env.isGroup && env.enableGroupVoiceRecognition &&
        !env.enableGroupVoiceReply && env.canProcessVoice then
      ⟨.recordedOnly, appends, 1, 0, 0, 0, st.store⟩
    else if env.enableChatReply && env.canGenerateReply then
      if env.decisionRaises then
        ⟨.error, appends, 0, 0, 0, 0, st.store⟩
      else
        let d := should_generate_reply st (some env.sessionId)
          env.randomValue env.decisionTime
        if d.1 then
          if env.llmProviderAvailable then
            ⟨.replyEmitted, appends, 0, 1, 1, 0, d.2⟩
          else
            ⟨.error, appends, 0, 0, 1, 0, d.2⟩
        else
          ⟨.replySkipped, appends, 0, 0, 1, 0, d.2⟩
    else
      ⟨.recordedOnly, appends, 0, 0, 0, 0, st.store⟩

/-- `VoiceToTextPlugin._process_voice_message` (main.py lines 85-135):
the body above wrapped in `try/except/finally`; the `finally` always runs
`_cleanup_resources`, which releases the temporary file resources and
runs the TTL sweep with the default max age of 3600 seconds. -/
def process_voice_message (st : ServiceState) (env : PipelineEnv) :
    PipelineResult :=
  let r := pipelineBody st env
  { r with
      cleanups := r.cleanups + 1,
      store := (cleanup_old_sessions r.store env.cleanupTime 3600).newStore }

/-- `VoiceToTextPlugin.on_message` (main.py lines 70-82) for one voice
component: the permission check runs before `_process_voice_message`, so a
denied event is only logged — neither the pipeline body nor its `finally`
block runs. -/
def on_message (st : ServiceState) (env : PipelineEnv) : PipelineResult :=
  if env.canProcessVoice then process_voice_message st env
  else ⟨.permissionDenied, 0, 0, 0, 0, 0, st.store⟩

/-- One store-affecting operation of the service: a `should_generate_reply`
call (with the policy flags active at that moment and the impure draws) or
a `cleanup_old_sessions` sweep. -/
inductive SessionOp where
  | decision (enabled : Bool) (p : ℚ) (sessionId : Option String) (r : ℚ) (t : ℚ)
  | sweep (t : ℚ) (maxAge : ℚ)
  deriving DecidableEq

/-- Effect of one operation on the session store. -/
def opStore (store : Store) : SessionOp → Store
  | .decision en p sid r t => (should_generate_reply ⟨en, p, store⟩ sid r t).2
  | .sweep t maxAge => (cleanup_old_sessions store t maxAge).newStore

/-- The `time.time()` value observed by an operation. -/
def opTime : SessionOp → ℚ
  | .decision _ _ _ _ t => t
  | .sweep t _ => t

/-- Run a sequence of operations left to right. -/
def runOps (store : Store) (ops : List SessionOp) : Store :=
  ops.foldl opStore store

/-- The clock is non-decreasing along the operation sequence, starting no
earlier than `t`. -/
def timesMono : ℚ → List SessionOp → Prop
  | _, [] => True
  | t, op :: rest => t ≤ opTime op ∧ timesMono (opTime op) rest

/-- Every timestamp in the store is at most `t`. -/
def storeBounded (store : Store) (t : ℚ) : Prop :=
  ∀ p ∈ store, p.2 ≤ t

/-- The store's keys are pairwise distinct (true of every store arising
from a Python dict). -/
def keysNodup (store : Store) : Prop :=
  (store.map Prod.fst).Nodup

theorem lookupSession_touch (store : Store) (sid : String) (t : ℚ) (s : String) :
    lookupSession (touch store sid t) s =
      if sid = s then some t else lookupSession store s := by
  induction store with
  | nil => simp [touch, lookupSession]
  | cons p rest ih =>
      obtain ⟨k, v⟩ := p
      by_cases hk : k = sid
      · subst hk
        by_cases hks : k = s
        · simp [touch, lookupSession, hks]
        · simp [touch, lookupSession, hks]
      · by_cases hs : k = s
        · subst hs
          have hss : ¬ sid = k := fun h => hk h.symm
          simp [touch, hk, lookupSession, hss]
        · simp [touch, hk, lookupSession, hs, ih]

theorem mem_touch {p : String × ℚ} {store : Store} {sid : String} {t : ℚ}
    (h : p ∈ touch store sid t) : p = (sid, t) ∨ p ∈ store := by
  induction store with
  | nil =>
      simp [touch] at h
      exact Or.inl h
  | cons q rest ih =>
      obtain ⟨k, v⟩ := q
      by_cases hk : k = sid
      · subst hk
        simp [touch] at h
        rcases h with h | h
        · exact Or.inl h
        · exact Or.inr (List.mem_cons_of_mem _ h)
      · simp [touch, hk] at h
        rcases h with h | h
        · exact Or.inr (by simp [h])
        · rcases ih h with h1 | h1
          · exact Or.inl h1
          · exact Or.inr (List.mem_cons_of_mem _ h1)

theorem lookupSession_mem {store : Store} {s : String} {v : ℚ}
    (h : lookupSession store s = some v) : (s, v) ∈ store := by
  induction store with
  | nil => simp [lookupSession] at h
  | cons p rest ih =>
      obtain ⟨k, w⟩ := p
      by_cases hk : k = s
      · subst hk
        simp [lookupSession] at h
        simp [h]
      · simp [lookupSession, hk] at h
        exact List.mem_cons_of_mem _ (ih h)

theorem lookupSession_filter_notMem (store : Store) (L : List String) (s : String) :
    lookupSession (store.filter (fun p => decide (p.1 ∉ L))) s =
      if s ∈ L then none else lookupSession store s := by
  induction store with
  | nil => simp [lookupSession]
  | cons p rest ih =>
      obtain ⟨k, v⟩ := p
      simp only [decide_not] at ih ⊢
      by_cases hkL : k ∈ L
      · by_cases hs : s ∈ L
        · simp [List.filter_cons, hkL, ih, hs, lookupSession]
        · have hks : ¬ k = s := fun h => hs (h ▸ hkL)
          simp [List.filter_cons, hkL, ih, hs, lookupSession, hks]
      · by_cases hks : k = s
        · subst hks
          simp [List.filter_cons, hkL, lookupSession]
        · simp [List.filter_cons, hkL, lookupSession, hks, ih]

theorem staleKeys_subset (store : Store) (q : String × ℚ → Bool) :
    ((store.filter q).map Prod.fst) ⊆ store.map Prod.fst := by
  intro s hs
  simp only [List.mem_map] at hs ⊢
  obtain ⟨p, hp, rfl⟩ := hs
  exact ⟨p, List.mem_of_mem_filter hp, rfl⟩

theorem mem_staleKeys {store : Store} (now maxAge : ℚ) (s : String)
    (hnd : keysNodup store) :
    s ∈ (store.filter (fun p => decide (now - p.2 > maxAge))).map Prod.fst ↔
      ∃ v, lookupSession store s = some v ∧ now - v > maxAge := by
  induction store with
  | nil => simp [lookupSession]
  | cons p rest ih =>
      obtain ⟨k, v⟩ := p
      simp only [keysNodup, List.map_cons, List.nodup_cons] at hnd
      obtain ⟨hknot, hnd1⟩ := hnd
      have ih1 := ih hnd1
      by_cases hks : k = s
      · subst hks
        by_cases hstale : now - v > maxAge
        · simp [List.filter_cons, hstale, lookupSession]
        · have hnotin :
              k ∉ (rest.filter (fun p => decide (now - p.2 > maxAge))).map Prod.fst :=
            fun h => hknot (staleKeys_subset rest _ h)
          simp [List.filter_cons, hstale, lookupSession, hnotin]
      · have hsk : ¬ s = k := fun h => hks h.symm
        by_cases hstale : now - v > maxAge
        · simp [List.filter_cons, hstale, lookupSession, hks, hsk, ih1]
        · simp [List.filter_cons, hstale, lookupSession, hks, ih1]

theorem lookupSession_sweep (store : Store) (now maxAge : ℚ) (s : String)
    (hnd : keysNodup store) :
    lookupSession (cleanup_old_sessions store now maxAge).newStore s =
      match lookupSession store s with
      | none => none
      | some v => if now - v > maxAge then none else some v := by
  simp only [cleanup_old_sessions]
  rw [lookupSession_filter_notMem]
  cases h : lookupSession store s with
  | none =>
      have hnot : s ∉ (store.filter (fun p => decide (now - p.2 > maxAge))).map Prod.fst := by
        intro hmem
        obtain ⟨u, hu, _⟩ := (mem_staleKeys now maxAge s hnd).1 hmem
        rw [h] at hu
        exact Option.noConfusion hu
      simp [hnot, h]
  | some v =>
      by_cases hstale : now - v > maxAge
      · have hmem : s ∈ (store.filter (fun p => decide (now - p.2 > maxAge))).map Prod.fst :=
          (mem_staleKeys now maxAge s hnd).2 ⟨v, h, hstale⟩
        simp [hmem, hstale]
      · have hnot : s ∉ (store.filter (fun p => decide (now - p.2 > maxAge))).map Prod.fst := by
          intro hmem
          obtain ⟨u, hu, hu1⟩ := (mem_staleKeys now maxAge s hnd).1 hmem
          rw [h] at hu
          cases hu
          exact hstale hu1
        simp [hnot, h, hstale]

theorem storeBounded_mono {store : Store} {t0 t1 : ℚ}
    (hb : storeBounded store t0) (h : t0 ≤ t1) : storeBounded store t1 :=
  fun p hp => le_trans (hb p hp) h

theorem storeBounded_touch {store : Store} {t0 : ℚ} {sid : String} {t : ℚ}
    (hb : storeBounded store t0) (h : t0 ≤ t) :
    storeBounded (touch store sid t) t := by
  intro p hp
  rcases mem_touch hp with rfl | hp1
  · exact le_refl t
  · exact le_trans (hb p hp1) h

theorem storeBounded_filter {store : Store} {t0 : ℚ} {q : String × ℚ → Bool}
    (hb : storeBounded store t0) : storeBounded (store.filter q) t0 :=
  fun p hp => hb p (List.mem_of_mem_filter hp)

theorem storeBounded_opStore {store : Store} {t0 : ℚ} (op : SessionOp)
    (hb : storeBounded store t0) (h : t0 ≤ opTime op) :
    storeBounded (opStore store op) (opTime op) := by
  cases op with
  | decision en p sid r t =>
      simp only [opStore, opTime] at h ⊢
      cases en with
      | false => simpa [should_generate_reply] using storeBounded_mono hb h
      | true =>
          by_cases hsid : optTruthy sid
          · simpa [should_generate_reply, hsid] using storeBounded_touch hb h
          · simpa [should_generate_reply, hsid] using storeBounded_mono hb h
  | sweep t maxAge =>
      simp only [opStore, opTime] at h ⊢
      simp only [cleanup_old_sessions]
      exact storeBounded_filter (storeBounded_mono hb h)

theorem lookupSession_opStore_le {store : Store} {t0 : ℚ} (op : SessionOp)
    (hb : storeBounded store t0) (h : t0 ≤ opTime op) {s : String} {v u : ℚ}
    (h1 : lookupSession store s = some v)
    (h2 : lookupSession (opStore store op) s = some u) : v ≤ u := by
  cases op with
  | decision en p sid r t =>
      simp only [opStore, opTime] at h h2
      cases en with
      | false =>
          simp only [should_generate_reply] at h2
          simp at h2
          rw [h1] at h2
          exact le_of_eq (Option.some.inj h2)
      | true =>
          by_cases hsid : optTruthy sid
          · simp [should_generate_reply, hsid] at h2
            rw [lookupSession_touch] at h2
            by_cases heq : sid.getD "" = s
            · rw [if_pos heq] at h2
              have hv : v ≤ t0 := hb (s, v) (lookupSession_mem h1)
              have hut : u = t := (Option.some.inj h2).symm
              subst hut
              exact le_trans hv h
            · rw [if_neg heq] at h2
              rw [h1] at h2
              exact le_of_eq (Option.some.inj h2)
          · simp [should_generate_reply, hsid] at h2
            rw [h1] at h2
            exact le_of_eq (Option.some.inj h2)
  | sweep t maxAge =>
      simp only [opStore, cleanup_old_sessions] at h2
      rw [lookupSession_filter_notMem] at h2
      by_cases hmem : s ∈ (store.filter (fun p => decide (t - p.2 > maxAge))).map Prod.fst
      · rw [if_pos hmem] at h2
        exact Option.noConfusion h2
      · rw [if_neg hmem] at h2
        rw [h1] at h2
        exact le_of_eq (Option.some.inj h2)

theorem lookupSession_opStore_new {store : Store} (op : SessionOp) {s : String} {u : ℚ}
    (h1 : lookupSession store s = none)
    (h2 : lookupSession (opStore store op) s = some u) : u = opTime op := by
  cases op with
  | decision en p sid r t =>
      simp only [opStore, opTime] at h2 ⊢
      cases en with
      | false =>
          simp only [should_generate_reply] at h2
          simp at h2
          rw [h1] at h2
          exact Option.noConfusion h2
      | true =>
          by_cases hsid : optTruthy sid
          · simp [should_generate_reply, hsid] at h2
            rw [lookupSession_touch] at h2
            by_cases heq : sid.getD "" = s
            · rw [if_pos heq] at h2
              exact (Option.some.inj h2).symm
            · rw [if_neg heq] at h2
              rw [h1] at h2
              exact Option.noConfusion h2
          · simp [should_generate_reply, hsid] at h2
            rw [h1] at h2
            exact Option.noConfusion h2
  | sweep t maxAge =>
      simp only [opStore, cleanup_old_sessions] at h2
      rw [lookupSession_filter_notMem] at h2
      by_cases hmem : s ∈ (store.filter (fun p => decide (t - p.2 > maxAge))).map Prod.fst
      · rw [if_pos hmem] at h2
        exact Option.noConfusion h2
      · rw [if_neg hmem] at h2
        rw [h1] at h2
        exact Option.noConfusion h2

theorem runOps_lookup_bound :
    ∀ (ops : List SessionOp) (store : Store) (t : ℚ),
      timesMono t ops → storeBounded store t →
      ∀ (s : String) (v2 : ℚ), lookupSession (runOps store ops) s = some v2 →
        ((∀ v1, lookupSession store s = some v1 → v1 ≤ v2) ∧
         (lookupSession store s = none → t ≤ v2)) := by
  intro ops
  induction ops with
  | nil =>
      intro store t _ _ s v2 h2
      have h2' : lookupSession store s = some v2 := h2
      constructor
      · intro v1 h1
        rw [h1] at h2'
        exact le_of_eq (Option.some.inj h2')
      · intro h1
        rw [h1] at h2'
        exact Option.noConfusion h2'
  | cons op rest ih =>
      intro store t hm hb s v2 h2
      obtain ⟨ht, hm1⟩ := hm
      have hb1 := storeBounded_opStore op hb ht
      have h2' : lookupSession (runOps (opStore store op) rest) s = some v2 := h2
      have IH := ih (opStore store op) (opTime op) hm1 hb1 s v2 h2'
      constructor
      · intro v1 h1
        cases hmid : lookupSession (opStore store op) s with
        | some u =>
            exact le_trans (lookupSession_opStore_le op hb ht h1 hmid) (IH.1 u hmid)
        | none =>
            have hv1t : v1 ≤ t := hb (s, v1) (lookupSession_mem h1)
            exact le_trans hv1t (le_trans ht (IH.2 hmid))
      · intro h1
        cases hmid : lookupSession (opStore store op) s with
        | some u =>
            have hu := lookupSession_opStore_new op h1 hmid
            calc t ≤ opTime op := ht
              _ = u := hu.symm
              _ ≤ v2 := IH.1 u hmid
        | none => exact le_trans ht (IH.2 hmid)

/-- C1: should_generate_reply returns True regardless of the draw when the
policy is disabled; when enabled it returns exactly the comparison
r ≤ reply_probability for the uniform draw r in [0,1), so probability 1.0
always replies and probability 0.0 replies exactly on the draw r = 0. -/
theorem C1_should_generate_reply_verdict (p : ℚ) (store : Store)
    (sid : Option String) (r now : ℚ) (h0 : 0 ≤ r) (h1 : r < 1) :
    ((should_generate_reply ⟨false, p, store⟩ sid r now).1 = true) ∧
    ((should_generate_reply ⟨true, p, store⟩ sid r now).1 = true ↔ r ≤ p) ∧
    (p = 1 → (should_generate_reply ⟨true, p, store⟩ sid r now).1 = true) ∧
    (p = 0 → ((should_generate_reply ⟨true, p, store⟩ sid r now).1 = true ↔ r = 0)) := by
  refine ⟨?_, ?_, ?_, ?_⟩
  · simp [should_generate_reply]
  · simp [should_generate_reply]
  · intro hp
    subst hp
    simp [should_generate_reply]
    exact le_of_lt h1
  · intro hp
    subst hp
    simp [should_generate_reply]
    constructor
    · intro h
      exact le_antisymm h h0
    · intro h
      exact le_of_eq h

theorem C1_should_generate_reply_verdict_witness :
    ((0:ℚ) ≤ 1/4 ∧ (1/4:ℚ) < 1) ∧
    (should_generate_reply ⟨false, 3/10, []⟩ (some "s") (1/4) 5).1 = true :=
  ⟨⟨by norm_num, by norm_num⟩,
    (C1_should_generate_reply_verdict (3/10) [] (some "s") (1/4) 5
      (by norm_num) (by norm_num)).1⟩

/-- C2: the effective reply probability is clamped into [0,1] at the
initial load and at every reload; loading 1.5 yields 1.0 and loading
-0.2 yields 0.0. -/
theorem C2_probability_clamped :
    (∀ cfg : PluginCfg, 0 ≤ (load_config cfg).2 ∧ (load_config cfg).2 ≤ 1) ∧
    (load_config ⟨some ⟨some true, some (3/2)⟩⟩).2 = 1 ∧
    (load_config ⟨some ⟨some true, some (-(1/5))⟩⟩).2 = 0 ∧
    (∀ (st : ServiceState) (cfg : PluginCfg),
      0 ≤ (update_config st cfg).replyProbability ∧
        (update_config st cfg).replyProbability ≤ 1) := by
  refine ⟨?_, ?_, ?_, ?_⟩
  · intro cfg
    exact ⟨le_max_left 0 _, max_le (by norm_num) (min_le_left 1 _)⟩
  · norm_num [load_config]
  · norm_num [load_config]
  · intro st cfg
    exact ⟨le_max_left 0 _, max_le (by norm_num) (min_le_left 1 _)⟩

/-- C10: when the Chat_Reply section or its keys are absent, loading and
reloading yield enabled = false and reply probability 0.3. -/
theorem C10_config_defaults :
    load_config ⟨none⟩ = (false, 3/10) ∧
    load_config ⟨some ⟨none, none⟩⟩ = (false, 3/10) ∧
    (∀ st : ServiceState, update_config st ⟨none⟩ = ⟨false, 3/10, st.store⟩) ∧
    (∀ st : ServiceState,
      update_config st ⟨some ⟨none, none⟩⟩ = ⟨false, 3/10, st.store⟩) := by
  have hc : max (0:ℚ) (min 1 (3/10)) = 3/10 := by
    rw [min_eq_right (by norm_num), max_eq_right (by norm_num)]
  refine ⟨?_, ?_, ?_, ?_⟩
  · simp [load_config, hc]
  · simp [load_config, hc]
  · intro st
    simp [update_config, load_config, hc]
  · intro st
    simp [update_config, load_config, hc]

/-- C6 fails on the code: with the policy disabled, should_generate_reply
returns before the bookkeeping, so the store is not touched even for a
non-empty session id. -/
theorem C6_touch_counterexample :
    (should_generate_reply ⟨false, 1/2, []⟩ (some "s1") (1/4) 5).2 = [] ∧
    lookupSession (should_generate_reply ⟨false, 1/2, []⟩ (some "s1") (1/4) 5).2 "s1"
      = none := by
  constructor <;> rfl

/-- C6 amended: only when the policy is enabled does a call — whatever the
verdict — upsert the entry for a non-empty session id with the current
time, leaving the store unchanged for an empty or absent session id; with
the policy disabled the store is never touched. -/
theorem C6_store_effect (en : Bool) (p : ℚ) (store : Store)
    (sid : Option String) (r now : ℚ) :
    (should_generate_reply ⟨en, p, store⟩ sid r now).2 =
      if en && optTruthy sid then touch store (sid.getD "") now else store := by
  cases en with
  | false => simp [should_generate_reply]
  | true =>
      by_cases hsid : optTruthy sid
      · simp [should_generate_reply, hsid]
      · simp [should_generate_reply, hsid]

/-- C5 fails as stated: the sweep removes the expired entry, but
cleanup_old_sessions has no return statement — the call returns None, not
the count (here 1) of removed entries. -/
theorem C5_sweep_counterexample :
    (cleanup_old_sessions [("s1", 0)] 3601 3600).newStore = [] ∧
    (cleanup_old_sessions [("s1", 0)] 3601 3600).removedCount = 1 ∧
    (cleanup_old_sessions [("s1", 0)] 3601 3600).ret = none ∧
    (cleanup_old_sessions [("s1", 0)] 3601 3600).ret ≠ some 1 := by
  refine ⟨?_, ?_, ?_, ?_⟩
  · norm_num [cleanup_old_sessions, List.filter_cons]
  · norm_num [cleanup_old_sessions, List.filter_cons]
  · rfl
  · intro hcon
    exact Option.noConfusion hcon

/-- C5 amended: Sweep(now, maxAge) removes exactly the entries with
now - lastDecisionAt > maxAge and keeps every other entry unchanged
(Touch("s1", t0) then Sweep(t0 + maxAge + 1, maxAge) removes s1 while
Sweep(t0 + maxAge - 1, maxAge) retains it); the removed count is computed
only for logging and the call returns None rather than that count. -/
theorem C5_sweep_semantics :
    (∀ (store : Store) (now maxAge : ℚ) (s : String), keysNodup store →
      lookupSession (cleanup_old_sessions store now maxAge).newStore s =
        match lookupSession store s with
        | none => none
        | some v => if now - v > maxAge then none else some v) ∧
    (∀ t0 maxAge : ℚ,
      lookupSession
        (cleanup_old_sessions (touch [] "s1" t0) (t0 + maxAge + 1) maxAge).newStore
        "s1" = none) ∧
    (∀ t0 maxAge : ℚ,
      lookupSession
        (cleanup_old_sessions (touch [] "s1" t0) (t0 + maxAge - 1) maxAge).newStore
        "s1" = some t0) ∧
    (∀ (store : Store) (now maxAge : ℚ),
      (cleanup_old_sessions store now maxAge).removedCount =
        (store.filter (fun p => decide (now - p.2 > maxAge))).length ∧
      (cleanup_old_sessions store now maxAge).ret = none) := by
  refine ⟨?_, ?_, ?_, ?_⟩
  · intro store now maxAge s hnd
    exact lookupSession_sweep store now maxAge s hnd
  · intro t0 maxAge
    have hnd : keysNodup (touch ([] : Store) "s1" t0) := by simp [touch, keysNodup]
    rw [lookupSession_sweep _ _ _ _ hnd]
    have hl : lookupSession (touch ([] : Store) "s1" t0) "s1" = some t0 := by
      simp [touch, lookupSession]
    rw [hl]
    have hgt : t0 + maxAge + 1 - t0 > maxAge := by linarith
    simp [hgt]
  · intro t0 maxAge
    have hnd : keysNodup (touch ([] : Store) "s1" t0) := by simp [touch, keysNodup]
    rw [lookupSession_sweep _ _ _ _ hnd]
    have hl : lookupSession (touch ([] : Store) "s1" t0) "s1" = some t0 := by
      simp [touch, lookupSession]
    rw [hl]
    have hle : ¬ (t0 + maxAge - 1 - t0 > maxAge) := by
      intro h
      linarith
    simp [hle]
  · intro store now maxAge
    constructor
    · simp [cleanup_old_sessions]
    · rfl

theorem C5_sweep_semantics_witness :
    keysNodup [("s1", (0:ℚ)), ("s2", 100)] ∧
    lookupSession
      (cleanup_old_sessions [("s1", (0:ℚ)), ("s2", 100)] 3601 3600).newStore "s2"
      = some 100 := by
  have hnd : keysNodup [("s1", (0:ℚ)), ("s2", 100)] := by simp [keysNodup]
  refine ⟨hnd, ?_⟩
  have h := C5_sweep_semantics.1 [("s1", (0:ℚ)), ("s2", 100)] 3601 3600 "s2" hnd
  have hne : ("s1" : String) ≠ "s2" := by decide
  rw [h]
  norm_num [lookupSession, hne]

theorem pipelineBody_cleanups (st : ServiceState) (env : PipelineEnv) :
    (pipelineBody st env).cleanups = 0 := by
  simp only [pipelineBody]
  split_ifs <;> rfl

/-- Concrete group event with a successful transcription, group voice
recognition on and group voice reply off. -/
def envGroupRecorded : PipelineEnv :=
  ⟨true, true, true, true, false, true, "sess", some "f.wav", some "hello",
    false, true, false, 1/2, 10, 20⟩

/-- Concrete event failing the permission gate. -/
def envPermissionDenied : PipelineEnv :=
  ⟨false, false, true, false, false, true, "sess", some "f.wav", some "hello",
    false, true, false, 1/2, 10, 20⟩

/-- Concrete private-chat event whose transcription comes back empty. -/
def envEmptyTranscription : PipelineEnv :=
  ⟨false, true, true, false, false, true, "sess", some "f.wav", some "",
    false, true, false, 1/2, 10, 20⟩

/-- C3: a group event with successful transcription, group voice
recognition enabled, group voice reply disabled and a granted permission
check is recorded to history exactly once, stops event propagation exactly
once, never reaches the decision engine or the reply generator, and ends
with outcome recorded-only. -/
theorem C3_group_recorded_only (st : ServiceState) (env : PipelineEnv)
    (hg : env.isGroup = true)
    (hrec : env.enableGroupVoiceRecognition = true)
    (hnorep : env.enableGroupVoiceReply = false)
    (hcp : env.canProcessVoice = true)
    (hf : optTruthy env.filePrepResult = true)
    (ht : optTruthy env.transcription = true)
    (hrok : env.recordFails = false) :
    (on_message st env).outcome = PipelineOutcome.recordedOnly ∧
    (on_message st env).historyAppends = 1 ∧
    (on_message st env).stopPropagation = 1 ∧
    (on_message st env).replyRequests = 0 ∧
    (on_message st env).decisionCalls = 0 := by
  simp [on_message, hcp, process_voice_message, pipelineBody, hf, ht, hg,
    hrec, hnorep, hrok]

theorem C3_group_recorded_only_witness :
    (envGroupRecorded.isGroup = true ∧
     envGroupRecorded.enableGroupVoiceRecognition = true ∧
     envGroupRecorded.enableGroupVoiceReply = false ∧
     envGroupRecorded.canProcessVoice = true ∧
     optTruthy envGroupRecorded.filePrepResult = true ∧
     optTruthy envGroupRecorded.transcription = true ∧
     envGroupRecorded.recordFails = false) ∧
    ((on_message ⟨true, 3/10, []⟩ envGroupRecorded).outcome =
        PipelineOutcome.recordedOnly ∧
     (on_message ⟨true, 3/10, []⟩ envGroupRecorded).historyAppends = 1 ∧
     (on_message ⟨true, 3/10, []⟩ envGroupRecorded).stopPropagation = 1 ∧
     (on_message ⟨true, 3/10, []⟩ envGroupRecorded).replyRequests = 0 ∧
     (on_message ⟨true, 3/10, []⟩ envGroupRecorded).decisionCalls = 0) :=
  ⟨⟨rfl, rfl, rfl, rfl, by decide, by decide, rfl⟩,
    C3_group_recorded_only ⟨true, 3/10, []⟩ envGroupRecorded rfl rfl rfl rfl
      (by decide) (by decide) rfl⟩

/-- C4 fails as stated: when the permission gate denies the event,
on_message skips _process_voice_message entirely, so the permission-denied
outcome is followed by zero cleanup runs, not one. -/
theorem C4_cleanup_counterexample :
    (on_message ⟨false, 3/10, []⟩ envPermissionDenied).outcome =
        PipelineOutcome.permissionDenied ∧
    (on_message ⟨false, 3/10, []⟩ envPermissionDenied).cleanups = 0 :=
  ⟨rfl, rfl⟩

/-- C4 amended: the cleanup stage (temporary-file release plus the TTL
sweep) runs exactly once for every invocation that passes the permission
check — whichever outcome precedes it, including file-error,
transcription-empty and an unexpected error raised mid-stage — and zero
times when the permission check denies the event. -/
theorem C4_cleanup_exactly_once_after_permission
    (st : ServiceState) (env : PipelineEnv) :
    (on_message st env).cleanups = if env.canProcessVoice then 1 else 0 := by
  by_cases hcp : env.canProcessVoice
  · simp [on_message, hcp, process_voice_message, pipelineBody_cleanups]
  · simp [on_message, hcp]

/-- C7: when transcription yields no usable text (empty result or a caught
provider failure), the invocation ends with outcome transcription-empty,
nothing is appended to history, and neither the decision engine nor the
reply generator runs. -/
theorem C7_transcription_empty (st : ServiceState) (env : PipelineEnv)
    (hcp : env.canProcessVoice = true)
    (hf : optTruthy env.filePrepResult = true)
    (ht : optTruthy env.transcription = false) :
    (on_message st env).outcome = PipelineOutcome.transcriptionEmpty ∧
    (on_message st env).historyAppends = 0 ∧
    (on_message st env).replyRequests = 0 ∧
    (on_message st env).decisionCalls = 0 := by
  simp [on_message, hcp, process_voice_message, pipelineBody, hf, ht]

theorem C7_transcription_empty_witness :
    (envEmptyTranscription.canProcessVoice = true ∧
     optTruthy envEmptyTranscription.filePrepResult = true ∧
     optTruthy envEmptyTranscription.transcription = false) ∧
    ((on_message ⟨false, 3/10, []⟩ envEmptyTranscription).outcome =
        PipelineOutcome.transcriptionEmpty ∧
     (on_message ⟨false, 3/10, []⟩ envEmptyTranscription).historyAppends = 0 ∧
     (on_message ⟨false, 3/10, []⟩ envEmptyTranscription).replyRequests = 0 ∧
     (on_message ⟨false, 3/10, []⟩ envEmptyTranscription).decisionCalls = 0) :=
  ⟨⟨rfl, by decide, by decide⟩,
    C7_transcription_empty ⟨false, 3/10, []⟩ envEmptyTranscription rfl
      (by decide) (by decide)⟩

/-- C9: a failure inside the history-recording step is swallowed there:
the rest of the invocation — group gate, reply decision, reply emission,
cleanup, outcome and store effects — is exactly what it would have been
with a successful recording; only the history append is missing. -/
theorem C9_record_failure_isolated (st : ServiceState) (env : PipelineEnv) :
    process_voice_message st { env with recordFails := true } =
      { process_voice_message st { env with recordFails := false } with
          historyAppends := 0 } := by
  by_cases h1 : optTruthy env.filePrepResult <;>
  by_cases h2 : optTruthy env.transcription <;>
  by_cases h3 : env.isGroup && env.enableGroupVoiceRecognition &&
      !env.enableGroupVoiceReply && env.canProcessVoice <;>
  by_cases h4 : env.enableChatReply && env.canGenerateReply <;>
  by_cases h5 : env.decisionRaises <;>
  by_cases h6 : (should_generate_reply st (some env.sessionId)
      env.randomValue env.decisionTime).1 <;>
  by_cases h7 : env.llmProviderAvailable <;>
  simp [process_voice_message, pipelineBody, h1, h2, h3, h4, h5, h6, h7]

/-- C8: across any sequence of decision and sweep operations executed with
a non-decreasing clock, the stored lastDecisionAt of a session never
decreases while an entry for it exists — decisions overwrite it with a
value no smaller than the previous one, and the sweep removes stale
entries rather than lowering any timestamp. -/
theorem C8_timestamp_monotone (ops : List SessionOp) (store : Store)
    (t0 : ℚ) (s : String) (v v' : ℚ)
    (hb : storeBounded store t0) (hm : timesMono t0 ops)
    (h1 : lookupSession store s = some v)
    (h2 : lookupSession (runOps store ops) s = some v') : v ≤ v' :=
  (runOps_lookup_bound ops store t0 hm hb s v' h2).1 v h1

theorem C8_timestamp_monotone_witness :
    lookupSession
        (runOps [("s1", (1:ℚ))]
          [SessionOp.decision true (1/2) (some "s1") (1/4) 2,
           SessionOp.sweep 3 10]) "s1" = some 2 ∧
    (1:ℚ) ≤ 2 := by
  have hlook :
      lookupSession
        (runOps [("s1", (1:ℚ))]
          [SessionOp.decision true (1/2) (some "s1") (1/4) 2,
           SessionOp.sweep 3 10]) "s1" = some 2 := by
    have hne : ("s1" : String) ≠ "" := by decide
    norm_num [runOps, opStore, should_generate_reply, optTruthy, touch,
      cleanup_old_sessions, List.filter_cons, lookupSession, hne]
  refine ⟨hlook, ?_⟩
  refine C8_timestamp_monotone
    [SessionOp.decision true (1/2) (some "s1") (1/4) 2, SessionOp.sweep 3 10]
    [("s1", (1:ℚ))] 1 "s1" 1 2 ?_ ?_ ?_ hlook
  · intro p hp
    simp only [List.mem_singleton] at hp
    subst hp
    norm_num
  · norm_num [timesMono, opTime]
  · simp [lookupSession]

end VoiceToText
